import Mathlib

/-!
Verification of the CEFR extension content script (`src/content.js`).

The script's operations are embedded as pure Lean functions over an explicit
page state.  JavaScript strings are modelled as `List Char`; the document's
mutable element collection is a list of markup forests indexed by position
(the position in the `querySelectorAll` result, which is also the key the
script uses for its snapshot map).
-/

set_option maxRecDepth 100000

namespace CEFR

/-- Characters matched by the JavaScript regular-expression class \s,
    which is also the set removed by String.prototype.trim. -/
def jsWhitespace : List Char :=
  [' ', '\t', '\n', '\r', '\x0b', '\x0c', '\u00A0', '\u1680',
   '\u2000', '\u2001', '\u2002', '\u2003', '\u2004', '\u2005', '\u2006',
   '\u2007', '\u2008', '\u2009', '\u200A',
   '\u2028', '\u2029', '\u202F', '\u205F', '\u3000', '\uFEFF']

/-- Whether a character is JavaScript whitespace. -/
def isJsWs (c : Char) : Bool := jsWhitespace.contains c

/-- Replace every maximal run of characters satisfying `p` by the single
    character `rep`, as a global regex replace of `p+` does.  The Boolean
    argument records whether the previous character belonged to a run. -/
def collapseRunsAux (p : Char → Bool) (rep : Char) : Bool → List Char → List Char
  | _, [] => []
  | inRun, c :: cs =>
    if p c then
      if inRun then collapseRunsAux p rep true cs
      else rep :: collapseRunsAux p rep true cs
    else c :: collapseRunsAux p rep false cs

/-- The replace of /\s+/g by a single space in `cleanTextContent` and
    `getTextContentLength`. -/
def collapseWs (l : List Char) : List Char := collapseRunsAux isJsWs ' ' false l

/-- The replace of /\n+/g by a single newline in `cleanTextContent`. -/
def collapseNl (l : List Char) : List Char := collapseRunsAux (fun c => c == '\n') '\n' false l

/-- JavaScript String.prototype.trim modelled on character lists. -/
def jsTrim (l : List Char) : List Char :=
  ((l.dropWhile isJsWs).reverse.dropWhile isJsWs).reverse

/-- `cleanTextContent` from content.js: collapse whitespace runs to a space,
    collapse newline runs to a newline, trim, then truncate to 8000
    characters (`substring(0, 8000)`). -/
def cleanTextContent (text : List Char) : List Char :=
  (jsTrim (collapseNl (collapseWs text))).take 8000

theorem collapseRunsAux_length_le (p : Char → Bool) (rep : Char) :
    ∀ (l : List Char) (b : Bool), (collapseRunsAux p rep b l).length ≤ l.length := by
  intro l
  induction l with
  | nil => intro b; simp [collapseRunsAux]
  | cons c cs ih =>
    intro b
    simp only [collapseRunsAux]
    split
    · split
      · exact Nat.le_succ_of_le (ih true)
      · simpa using Nat.succ_le_succ (ih true)
    · simpa using Nat.succ_le_succ (ih false)

theorem dropWhile_length_le (p : Char → Bool) :
    ∀ l : List Char, (l.dropWhile p).length ≤ l.length := by
  intro l
  induction l with
  | nil => simp
  | cons c cs ih =>
    rw [List.dropWhile_cons]
    split
    · exact Nat.le_succ_of_le ih
    · simp

theorem jsTrim_length_le (l : List Char) : (jsTrim l).length ≤ l.length := by
  unfold jsTrim
  rw [List.length_reverse]
  calc ((l.dropWhile isJsWs).reverse.dropWhile isJsWs).length
      ≤ (l.dropWhile isJsWs).reverse.length := dropWhile_length_le _ _
    _ = (l.dropWhile isJsWs).length := List.length_reverse _
    _ ≤ l.length := dropWhile_length_le _ _

theorem collapseWs_length_le (l : List Char) : (collapseWs l).length ≤ l.length :=
  collapseRunsAux_length_le _ _ l false

theorem collapseNl_length_le (l : List Char) : (collapseNl l).length ≤ l.length :=
  collapseRunsAux_length_le _ _ l false

/-- C5: the text normalizer collapses every whitespace run to a single space,
    then collapses consecutive newlines, then trims, then truncates to 8000
    characters (that order is `cleanTextContent`'s definition); consequently
    the output length is at most min 8000 L for an input of length L. -/
theorem cleanTextContent_length_le (text : List Char) :
    (cleanTextContent text).length ≤ min 8000 text.length := by
  unfold cleanTextContent
  rw [List.length_take]
  apply min_le_min (Nat.le_refl _)
  calc (jsTrim (collapseNl (collapseWs text))).length
      ≤ (collapseNl (collapseWs text)).length := jsTrim_length_le _
    _ ≤ (collapseWs text).length := collapseNl_length_le _
    _ ≤ text.length := collapseWs_length_le _

/-- JavaScript split(/\n\n+/) from `replaceTextElements`: separators are
    maximal runs of at least two newline characters.  One pass over the
    input: `acc` holds the current segment reversed and `pending` counts the
    newlines seen since the last non-newline character; a pending run of two
    or more is a separator, a pending run of one belongs to the segment. -/
def splitParasAux : List Char → List Char → Nat → List (List Char)
  | [], acc, pending =>
      if 2 ≤ pending then [acc.reverse, []]
      else [(List.replicate pending '\n' ++ acc).reverse]
  | c :: rest, acc, pending =>
      if c = '\n' then splitParasAux rest acc (pending + 1)
      else if 2 ≤ pending then acc.reverse :: splitParasAux rest [c] 0
      else splitParasAux rest (c :: (List.replicate pending '\n' ++ acc)) 0

/-- The paragraphs of the rewritten content, split on blank-line runs. -/
def splitParas (l : List Char) : List (List Char) := splitParasAux l [] 0

/-- Markup tree for an element's inner content.  An element's textContent is
    the concatenation of its text leaves in document order; its innerHTML is
    modelled by the child forest itself, with `serializeF` giving the string
    the browser would report where the source compares strings. -/
inductive Html where
  | text (s : List Char) : Html
  | elem (tag : List Char) (children : List Html) : Html

mutual
/-- Boolean equality of markup nodes. -/
def Html.beq : Html → Html → Bool
  | .text s, .text t => s == t
  | .elem tg cs, .elem tg2 cs2 => tg == tg2 && Html.beqList cs cs2
  | _, _ => false
/-- Boolean equality of markup forests. -/
def Html.beqList : List Html → List Html → Bool
  | [], [] => true
  | a :: as, b :: bs => Html.beq a b && Html.beqList as bs
  | _, _ => false
end

mutual
theorem Html.beq_iff : ∀ (a b : Html), (Html.beq a b = true) ↔ a = b
  | .text s, .text t => by simp [Html.beq]
  | .text _, .elem _ _ => by simp [Html.beq]
  | .elem _ _, .text _ => by simp [Html.beq]
  | .elem tg cs, .elem tg2 cs2 => by
      simp [Html.beq, Bool.and_eq_true, Html.beqList_iff cs cs2]
theorem Html.beqList_iff : ∀ (as bs : List Html), (Html.beqList as bs = true) ↔ as = bs
  | [], [] => by simp [Html.beqList]
  | [], _ :: _ => by simp [Html.beqList]
  | _ :: _, [] => by simp [Html.beqList]
  | a :: as, b :: bs => by
      simp [Html.beqList, Bool.and_eq_true, Html.beq_iff a b, Html.beqList_iff as bs]
end

instance : DecidableEq Html := fun a b =>
  decidable_of_iff (Html.beq a b = true) (Html.beq_iff a b)

mutual
/-- textContent of a single markup node. -/
def flattenH : Html → List Char
  | .text s => s
  | .elem _ cs => flattenF cs
/-- textContent of a forest of markup nodes. -/
def flattenF : List Html → List Char
  | [] => []
  | h :: t => flattenH h ++ flattenF t
end

/-- HTML source for one character of text content, as innerHTML reports it. -/
def escapeChar (c : Char) : List Char :=
  if c = '&' then "&amp;".toList
  else if c = '<' then "&lt;".toList
  else if c = '>' then "&gt;".toList
  else [c]

/-- HTML source for a run of text content. -/
def escapeText (s : List Char) : List Char := s.flatMap escapeChar

mutual
/-- The innerHTML serialization of a markup node. -/
def serializeH : Html → List Char
  | .text s => escapeText s
  | .elem tag cs =>
      ('<' :: tag) ++ ('>' :: serializeF cs) ++ ('<' :: '/' :: tag) ++ ['>']
/-- The innerHTML serialization of a forest. -/
def serializeF : List Html → List Char
  | [] => []
  | h :: t => serializeH h ++ serializeF t
end

mutual
/-- `getTextNodes` from content.js, restricted to the text nodes' values, in
    the same depth-first order. -/
def getTextNodesH : Html → List (List Char)
  | .text s => [s]
  | .elem _ cs => getTextNodesF cs
/-- Text node values of a forest in depth-first order. -/
def getTextNodesF : List Html → List (List Char)
  | [] => []
  | h :: t => getTextNodesH h ++ getTextNodesF t
end

mutual
/-- Overwrite the first text node in depth-first order with `t`; the Boolean
    reports whether a text node was found (textNodes[0].nodeValue = newText
    in the source). -/
def setFirstTextH : Html → List Char → Html × Bool
  | .text _, t => (.text t, true)
  | .elem tag cs, t =>
      let r := setFirstTextF cs t
      (.elem tag r.1, r.2)
/-- Overwrite the first text node of a forest in depth-first order. -/
def setFirstTextF : List Html → List Char → List Html × Bool
  | [], _ => ([], false)
  | h :: rest, t =>
      let r := setFirstTextH h t
      if r.2 then (r.1 :: rest, true)
      else
        let r2 := setFirstTextF rest t
        (h :: r2.1, r2.2)
end

/-- A snapshot as stored by `storeOriginalTexts`: the element's textContent
    and its inner markup at capture time.  The element reference itself is
    the store key (the element's index in the query result), so it is not
    repeated here. -/
structure Snapshot where
  originalText : List Char
  originalHTML : List Html
deriving DecidableEq

/-- The document as the script sees it: the `querySelector` results for the
    main-content selectors, the body, and the elements matched by the big
    `querySelectorAll` of `storeOriginalTexts`, each as its child forest. -/
structure Dom where
  queryMain : List Char → Option (List Html)
  body : List Html
  elements : List (List Html)

/-- The script's whole mutable state: the document, the module-level
    `originalTexts` map and `isRewritten` flag, and the not-yet-fired
    setTimeout callback scheduled by `replacePageContent`. -/
structure State where
  dom : Dom
  originalTexts : List (Nat × Snapshot)
  isRewritten : Bool
  pending : Option (List Char)

/-- The observable parts of the fetch response consumed by
    `rewriteTextWithOpenAI`. -/
structure HttpResponse where
  status : Nat
  ok : Bool
  errorMessage : Option (List Char)
  content : List Char

/-- The result object `rewritePageContent` reports back. -/
inductive RewriteResult where
  | ok (originalLength newLength : Nat) : RewriteResult
  | err (msg : List Char) : RewriteResult
deriving DecidableEq

/-- Error message for text below the 10-character minimum. -/
def errTooShort : List Char := "Text content is too short to rewrite".toList

/-- Error message for a missing API key. -/
def errNoKey : List Char := "OpenAI API key is required".toList

/-- Error message for HTTP 401. -/
def errInvalidKey : List Char :=
  "Invalid API key. Please check your API key in the extension settings.".toList

/-- Error message for HTTP 429. -/
def errRateLimit : List Char :=
  "Rate limit exceeded. Please wait a moment and try again.".toList

/-- Error message for any other non-success status, carrying the service's
    reported message or the fallback. -/
def errApi (m : Option (List Char)) : List Char :=
  "API Error: ".toList ++ m.getD "Unknown error".toList

/-- Error message for an empty rewritten text. -/
def errEmptyResp : List Char := "OpenAI returned empty response".toList

/-- The wrapper the catch block of `rewriteTextWithOpenAI` puts around any
    error thrown while fetching. -/
def failWrap (m : List Char) : List Char := "Failed to rewrite text: ".toList ++ m

/-- Error message when the extracted page text is blank. -/
def errNoContent : List Char := "No readable text content found on this page".toList

/-- Classification of the fetch response inside `rewriteTextWithOpenAI`'s
    try block: 401, then 429, then any non-ok status, then an empty trimmed
    message content. -/
def fetchOutcome (resp : HttpResponse) : Except (List Char) (List Char) :=
  if resp.status = 401 then .error errInvalidKey
  else if resp.status = 429 then .error errRateLimit
  else if resp.ok = false then .error (errApi resp.errorMessage)
  else
    let rewrittenText := jsTrim resp.content
    if rewrittenText = [] then .error errEmptyResp
    else .ok rewrittenText

/-- `rewriteTextWithOpenAI` from content.js, with the HTTP response supplied
    as an oracle for the external fetch.  Validation errors are thrown before
    the try block; everything thrown inside it is re-thrown wrapped by
    `failWrap`. -/
def rewriteTextWithOpenAI (text targetLevel apiKey : List Char) (resp : HttpResponse) :
    Except (List Char) (List Char) :=
  if text = [] ∨ text.length < 10 then .error errTooShort
  else if apiKey = [] then .error errNoKey
  else
    match fetchOutcome resp with
    | .error m => .error (failWrap m)
    | .ok t => .ok t

/-- The ordered selector list of `extractMainContent`. -/
def contentSelectors : List (List Char) :=
  ["main".toList, "article".toList, "[role=\"main\"]".toList, ".content".toList,
   ".main-content".toList, ".post-content".toList, ".article-content".toList,
   ".story-content".toList, ".entry-content".toList]

/-- `getTextContentLength` from content.js, on an element's child forest:
    textContent with whitespace runs collapsed, trimmed, measured. -/
def getTextContentLength (el : List Html) : Nat :=
  (jsTrim (collapseWs (flattenF el))).length

/-- The for-loop of `extractMainContent`: the first selector whose match has
    collapsed text length above 100 supplies the content and breaks. -/
def findMainLoop (d : Dom) : List (List Char) → List Char
  | [] => []
  | sel :: rest =>
    match d.queryMain sel with
    | some el => if 100 < getTextContentLength el then flattenF el else findMainLoop d rest
    | none => findMainLoop d rest

/-- `extractMainContent` from content.js. -/
def extractMainContent (d : Dom) : List Char :=
  let mainContent := findMainLoop d contentSelectors
  let mainContent :=
    if mainContent = [] ∨ mainContent.length < 100 then flattenF d.body else mainContent
  cleanTextContent mainContent

/-- The indexed forEach of `storeOriginalTexts`, with the running element
    index as first argument. -/
def storeAux : Nat → List (List Html) → List (Nat × Snapshot)
  | _, [] => []
  | i, el :: rest =>
    let txt := flattenF el
    if txt ≠ [] ∧ 10 < (jsTrim txt).length then
      (i, ⟨txt, el⟩) :: storeAux (i + 1) rest
    else storeAux (i + 1) rest

/-- `storeOriginalTexts` from content.js: clears the snapshot map and
    repopulates it from the current elements. -/
def storeOriginalTexts (s : State) : State :=
  { s with originalTexts := storeAux 0 s.dom.elements }

/-- The per-node mutation of `replaceTextElements`: plain text leaves are
    replaced through textContent; otherwise the first text node of a detached
    copy of the original markup is overwritten and the result written back;
    with no text node, textContent is used. -/
def mutateElem (elems : List (List Html)) (idx : Nat) (item : Snapshot)
    (newText : List Char) : List (List Html) :=
  if serializeF item.originalHTML = item.originalText then
    elems.set idx [Html.text newText]
  else if getTextNodesF item.originalHTML ≠ [] then
    elems.set idx (setFirstTextF item.originalHTML newText).1
  else
    elems.set idx [Html.text newText]

/-- The forEach of `replaceTextElements` over the stored snapshots, carrying
    the running currentParagraph counter. -/
def applyRTE (paras : List (List Char)) :
    List (Nat × Snapshot) → Nat → List (List Html) → List (List Html)
  | [], _, elems => elems
  | (idx, item) :: rest, cur, elems =>
    if cur < paras.length ∧ 20 < item.originalText.length then
      let seg := paras.getD cur []
      let newText := if seg = [] then paras.getLastD [] else seg
      applyRTE paras rest (cur + 1) (mutateElem elems idx item newText)
    else applyRTE paras rest cur elems

/-- `replaceTextElements` from content.js. -/
def replaceTextElements (rewrittenContent : List Char) (s : State) : State :=
  { s with
    dom.elements := applyRTE (splitParas rewrittenContent) s.originalTexts 0 s.dom.elements }

/-- `replacePageContent` from content.js: the call to `replaceTextElements`
    is deferred behind a 300 ms setTimeout, modelled as a pending callback
    that `fireTimeout` later runs; the opacity transition is cosmetic and
    not modelled. -/
def replacePageContent (rewrittenContent : List Char) (s : State) : State :=
  { s with pending := some rewrittenContent }

/-- Firing of the setTimeout scheduled by `replacePageContent`. -/
def fireTimeout (s : State) : State :=
  match s.pending with
  | none => s
  | some content => { replaceTextElements content s with pending := none }

/-- `rewritePageContent` from content.js.  Its try/catch makes the function
    total: every failure at any stage comes back as `RewriteResult.err`. -/
def rewritePageContent (apiKey targetLevel : List Char) (resp : HttpResponse)
    (s : State) : RewriteResult × State :=
  let s1 := if s.isRewritten then s else storeOriginalTexts s
  let textContent := extractMainContent s1.dom
  if jsTrim textContent = [] then (.err errNoContent, s1)
  else
    match rewriteTextWithOpenAI textContent targetLevel apiKey resp with
    | .error m => (.err m, s1)
    | .ok rewrittenContent =>
      (.ok textContent.length rewrittenContent.length,
        { replacePageContent rewrittenContent s1 with isRewritten := true })

/-- The forEach of `resetPageContent`, writing each snapshot's original inner
    markup back in store order. -/
def writeBackAll : List (Nat × Snapshot) → List (List Html) → List (List Html)
  | [], elems => elems
  | (idx, item) :: rest, elems => writeBackAll rest (elems.set idx item.originalHTML)

/-- `resetPageContent` from content.js: a no-op unless rewritten; otherwise
    writes every snapshot's original markup back and lowers the flag.  Note
    that the source never clears `originalTexts` here. -/
def resetPageContent (s : State) : State :=
  if s.isRewritten = false then s
  else
    { s with
      dom.elements := writeBackAll s.originalTexts s.dom.elements,
      isRewritten := false }

/-- Modelled from the spec wording of claim C7: the first selector match
    whose whitespace-collapsed text length exceeds 100 characters, with the
    body as fallback. -/
def firstQualifying (d : Dom) : Option (List Html) :=
  (contentSelectors.filterMap d.queryMain).find?
    (fun el => decide (100 < getTextContentLength el))

/-- Modelled from the spec wording of claim C7: the selected main-content
    text before normalization. -/
def extractMainContentSpec (d : Dom) : List Char :=
  match firstQualifying d with
  | some el => flattenF el
  | none => flattenF d.body

/-- Modelled from the claim C10 wording: exactly the elements whose trimmed
    flattened text is longer than 10 characters, keyed by traversal order. -/
def captureSpec (elems : List (List Html)) : List (Nat × Snapshot) :=
  elems.enum.filterMap fun p =>
    if 10 < (jsTrim (flattenF p.2)).length then
      some (p.1, ⟨flattenF p.2, p.2⟩)
    else none

theorem storeAux_mem_get : ∀ (l : List (List Html)) (i idx : Nat) (item : Snapshot),
    (idx, item) ∈ storeAux i l →
    ∃ j, idx = i + j ∧ l[j]? = some item.originalHTML ∧
      item.originalText = flattenF item.originalHTML := by
  intro l
  induction l with
  | nil => intro i idx item h; simp [storeAux] at h
  | cons el rest ih =>
    intro i idx item h
    simp only [storeAux] at h
    split at h
    · rcases List.mem_cons.mp h with h1 | h2
      · refine ⟨0, ?_, ?_, ?_⟩ <;> simp_all
      · obtain ⟨j, hj, hg, ht⟩ := ih (i + 1) idx item h2
        exact ⟨j + 1, by omega, by simpa using hg, ht⟩
    · obtain ⟨j, hj, hg, ht⟩ := ih (i + 1) idx item h
      exact ⟨j + 1, by omega, by simpa using hg, ht⟩

theorem storeAux_mem_lb : ∀ (l : List (List Html)) (i idx : Nat) (item : Snapshot),
    (idx, item) ∈ storeAux i l → i ≤ idx := by
  intro l
  induction l with
  | nil => intro i idx item h; simp [storeAux] at h
  | cons el rest ih =>
    intro i idx item h
    simp only [storeAux] at h
    split at h
    · rcases List.mem_cons.mp h with h1 | h2
      · simp_all
      · exact Nat.le_of_succ_le (ih (i + 1) idx item h2)
    · exact Nat.le_of_succ_le (ih (i + 1) idx item h)

theorem storeAux_keys_pairwise : ∀ (l : List (List Html)) (i : Nat),
    List.Pairwise (fun a b => a.1 < b.1) (storeAux i l) := by
  intro l
  induction l with
  | nil => intro i; simp [storeAux]
  | cons el rest ih =>
    intro i
    simp only [storeAux]
    split
    · refine List.pairwise_cons.mpr ⟨?_, ih (i + 1)⟩
      intro p hp
      exact Nat.lt_of_lt_of_le (Nat.lt_succ_self i) (storeAux_mem_lb rest (i + 1) p.1 p.2 hp)
    · exact ih (i + 1)

theorem storeAux_keys_nodup (l : List (List Html)) (i : Nat) :
    ((storeAux i l).map Prod.fst).Nodup := by
  have h := storeAux_keys_pairwise l i
  have h2 : List.Pairwise (fun a b : Nat => a ≠ b) ((storeAux i l).map Prod.fst) := by
    rw [List.pairwise_map]
    exact h.imp (fun hlt => Nat.ne_of_lt hlt)
  exact h2

theorem nodup_keys_functional : ∀ (l : List (Nat × Snapshot)),
    (l.map Prod.fst).Nodup → ∀ (i : Nat) (a b : Snapshot),
    (i, a) ∈ l → (i, b) ∈ l → a = b := by
  intro l
  induction l with
  | nil => intro _ i a b ha; simp at ha
  | cons p rest ih =>
    intro hnd i a b ha hb
    simp only [List.map_cons, List.nodup_cons] at hnd
    obtain ⟨hp, hnd'⟩ := hnd
    rcases List.mem_cons.mp ha with ha1 | ha2 <;> rcases List.mem_cons.mp hb with hb1 | hb2
    · rw [← hb1] at ha1; simpa using ha1
    · exfalso
      have h1 : p.1 = i := by rw [← ha1]
      exact hp (by rw [h1]; exact List.mem_map_of_mem Prod.fst hb2)
    · exfalso
      have h1 : p.1 = i := by rw [← hb1]
      exact hp (by rw [h1]; exact List.mem_map_of_mem Prod.fst ha2)
    · exact ih hnd' i a b ha2 hb2

theorem writeBackAll_length : ∀ (l : List (Nat × Snapshot)) (elems : List (List Html)),
    (writeBackAll l elems).length = elems.length := by
  intro l
  induction l with
  | nil => intro elems; simp [writeBackAll]
  | cons p rest ih =>
    intro elems
    obtain ⟨idx, item⟩ := p
    simp [writeBackAll, ih]

theorem writeBackAll_frame : ∀ (l : List (Nat × Snapshot)) (elems : List (List Html)) (idx : Nat),
    idx ∉ l.map Prod.fst → (writeBackAll l elems)[idx]? = elems[idx]? := by
  intro l
  induction l with
  | nil => intro elems idx _; simp [writeBackAll]
  | cons p rest ih =>
    intro elems idx h
    obtain ⟨j, item⟩ := p
    simp only [List.map_cons, List.mem_cons] at h
    push_neg at h
    rw [writeBackAll, ih _ _ h.2, List.getElem?_set_ne (Ne.symm h.1)]

theorem writeBackAll_get : ∀ (l : List (Nat × Snapshot)) (elems : List (List Html))
    (idx : Nat) (item : Snapshot),
    (l.map Prod.fst).Nodup → (idx, item) ∈ l → idx < elems.length →
    (writeBackAll l elems)[idx]? = some item.originalHTML := by
  intro l
  induction l with
  | nil => intro elems idx item _ hm; simp at hm
  | cons p rest ih =>
    intro elems idx item hnd hm hlen
    obtain ⟨j, it⟩ := p
    simp only [List.map_cons, List.nodup_cons] at hnd
    obtain ⟨hj, hnd'⟩ := hnd
    rcases List.mem_cons.mp hm with h1 | h2
    · obtain ⟨hidx, hit⟩ := Prod.mk.injEq _ _ _ _ ▸ h1
      subst hidx
      rw [writeBackAll, writeBackAll_frame rest _ idx (by simp_all),
        List.getElem?_set_self (by simpa using hlen)]
      rw [hit]
    · rw [writeBackAll]
      exact ih _ idx item hnd' h2 (by simpa using hlen)

theorem mutateElem_getElem?_ne (elems : List (List Html)) (j : Nat) (item : Snapshot)
    (t : List Char) (idx : Nat) (h : idx ≠ j) :
    (mutateElem elems j item t)[idx]? = elems[idx]? := by
  unfold mutateElem
  split
  · exact List.getElem?_set_ne (Ne.symm h)
  · split
    · exact List.getElem?_set_ne (Ne.symm h)
    · exact List.getElem?_set_ne (Ne.symm h)

theorem mutateElem_length (elems : List (List Html)) (j : Nat) (item : Snapshot)
    (t : List Char) : (mutateElem elems j item t).length = elems.length := by
  unfold mutateElem
  split
  · simp
  · split <;> simp

theorem applyRTE_length (paras : List (List Char)) :
    ∀ (entries : List (Nat × Snapshot)) (cur : Nat) (elems : List (List Html)),
    (applyRTE paras entries cur elems).length = elems.length := by
  intro entries
  induction entries with
  | nil => intro cur elems; simp [applyRTE]
  | cons p rest ih =>
    intro cur elems
    obtain ⟨idx, item⟩ := p
    rw [applyRTE]
    split
    · rw [ih, mutateElem_length]
    · exact ih cur elems

theorem applyRTE_stops (paras : List (List Char)) :
    ∀ (entries : List (Nat × Snapshot)) (cur : Nat) (elems : List (List Html)),
    paras.length ≤ cur → applyRTE paras entries cur elems = elems := by
  intro entries
  induction entries with
  | nil => intro cur elems _; simp [applyRTE]
  | cons p rest ih =>
    intro cur elems hc
    obtain ⟨idx, item⟩ := p
    rw [applyRTE]
    split
    · rename_i hg
      exact absurd hg.1 (Nat.not_lt.mpr hc)
    · exact ih cur elems hc

theorem applyRTE_store_frame (paras : List (List Char)) :
    ∀ (entries : List (Nat × Snapshot)) (cur : Nat) (elems : List (List Html)) (idx : Nat),
    (∀ item' : Snapshot, (idx, item') ∈ entries → item'.originalText.length ≤ 20) →
    (applyRTE paras entries cur elems)[idx]? = elems[idx]? := by
  intro entries
  induction entries with
  | nil => intro cur elems idx _; simp [applyRTE]
  | cons p rest ih =>
    intro cur elems idx h
    obtain ⟨j, item⟩ := p
    rw [applyRTE]
    split
    · rename_i hg
      have hne : idx ≠ j := by
        intro he
        subst he
        exact absurd hg.2 (Nat.not_lt.mpr (h item (List.mem_cons_self _ _)))
      rw [ih _ _ idx (fun it hm => h it (List.mem_cons_of_mem _ hm)),
        mutateElem_getElem?_ne _ _ _ _ _ hne]
    · exact ih _ _ idx (fun it hm => h it (List.mem_cons_of_mem _ hm))

theorem applyRTE_beyond (paras : List (List Char)) :
    ∀ (entries : List (Nat × Snapshot)) (cur : Nat) (elems : List (List Html))
      (idx : Nat) (item : Snapshot),
    ((entries.map Prod.fst).Nodup) →
    (idx, item) ∈ ((entries.filter fun e => decide (20 < e.2.originalText.length)).drop
        (paras.length - cur)) →
    (applyRTE paras entries cur elems)[idx]? = elems[idx]? := by
  intro entries
  induction entries with
  | nil => intro cur elems idx item _ hm; simp [applyRTE] at hm ⊢
  | cons p rest ih =>
    intro cur elems idx item hnd hm
    obtain ⟨j, it⟩ := p
    simp only [List.map_cons, List.nodup_cons] at hnd
    obtain ⟨hj, hnd'⟩ := hnd
    by_cases hcur : cur < paras.length
    · rw [applyRTE]
      by_cases hq : 20 < it.originalText.length
      · rw [if_pos ⟨hcur, hq⟩]
        have hfilter :
            ((j, it) :: rest).filter (fun e => decide (20 < e.2.originalText.length)) =
            (j, it) :: rest.filter (fun e => decide (20 < e.2.originalText.length)) := by
          simp [List.filter_cons, hq]
        rw [hfilter] at hm
        have hd : paras.length - cur = (paras.length - (cur + 1)) + 1 := by omega
        rw [hd, List.drop_succ_cons] at hm
        have hidx : idx ∈ rest.map Prod.fst := by
          have := List.mem_of_mem_drop hm
          exact List.mem_map_of_mem Prod.fst (List.mem_of_mem_filter this)
        have hne : idx ≠ j := fun he => hj (he ▸ hidx)
        rw [ih (cur + 1) _ idx item hnd' hm, mutateElem_getElem?_ne _ _ _ _ _ hne]
      · rw [if_neg (fun hc => hq hc.2)]
        have hfilter :
            ((j, it) :: rest).filter (fun e => decide (20 < e.2.originalText.length)) =
            rest.filter (fun e => decide (20 < e.2.originalText.length)) := by
          simp [List.filter_cons, hq]
        rw [hfilter] at hm
        exact ih cur _ idx item hnd' hm
    · rw [applyRTE_stops paras _ _ _ (Nat.not_lt.mp hcur)]

theorem ite_state_dom (s : State) :
    (if s.isRewritten then s else storeOriginalTexts s).dom = s.dom := by
  split <;> rfl

theorem ite_state_isRewritten (s : State) :
    (if s.isRewritten then s else storeOriginalTexts s).isRewritten = s.isRewritten := by
  split <;> rfl

theorem ite_state_pending (s : State) :
    (if s.isRewritten then s else storeOriginalTexts s).pending = s.pending := by
  split <;> rfl

theorem ite_state_store (s : State) :
    (if s.isRewritten then s else storeOriginalTexts s).originalTexts =
      (if s.isRewritten then s.originalTexts else storeAux 0 s.dom.elements) := by
  split <;> rfl

theorem rewrite_err_char (apiKey targetLevel : List Char) (resp : HttpResponse)
    (s : State) (m : List Char) (s' : State)
    (h : rewritePageContent apiKey targetLevel resp s = (.err m, s')) :
    s'.dom = s.dom ∧ s'.isRewritten = s.isRewritten ∧ s'.pending = s.pending := by
  cases hr : s.isRewritten with
  | true =>
    simp only [rewritePageContent, hr, if_true, eq_self_iff_true] at h
    split at h
    · rw [Prod.mk.injEq] at h
      rw [← h.2]
      exact ⟨rfl, hr, rfl⟩
    · split at h
      · rw [Prod.mk.injEq] at h
        rw [← h.2]
        exact ⟨rfl, hr, rfl⟩
      · rw [Prod.mk.injEq] at h
        exact absurd h.1 (by simp)
  | false =>
    simp only [rewritePageContent, hr, Bool.false_eq_true, if_false] at h
    split at h
    · rw [Prod.mk.injEq] at h
      rw [← h.2]
      exact ⟨rfl, hr, rfl⟩
    · split at h
      · rw [Prod.mk.injEq] at h
        rw [← h.2]
        exact ⟨rfl, hr, rfl⟩
      · rw [Prod.mk.injEq] at h
        exact absurd h.1 (by simp)

theorem rewrite_ok_char (apiKey targetLevel : List Char) (resp : HttpResponse)
    (s : State) (a b : Nat) (s' : State)
    (h : rewritePageContent apiKey targetLevel resp s = (.ok a b, s')) :
    s'.dom = s.dom ∧ s'.isRewritten = true ∧
    s'.originalTexts =
      (if s.isRewritten then s.originalTexts else storeAux 0 s.dom.elements) ∧
    ∃ rw,
      rewriteTextWithOpenAI (extractMainContent s.dom) targetLevel apiKey resp = .ok rw ∧
      s'.pending = some rw ∧ a = (extractMainContent s.dom).length ∧ b = rw.length := by
  cases hr : s.isRewritten with
  | true =>
    simp only [rewritePageContent, hr, if_true, eq_self_iff_true] at h
    rw [if_pos rfl]
    split at h
    · rw [Prod.mk.injEq] at h
      exact absurd h.1 (by simp)
    · split at h
      · rw [Prod.mk.injEq] at h
        exact absurd h.1 (by simp)
      · rename_i rw hrw
        rw [Prod.mk.injEq] at h
        obtain ⟨h1, h2⟩ := h
        rw [RewriteResult.ok.injEq] at h1
        subst h2
        exact ⟨rfl, rfl, rfl, rw, hrw, rfl, h1.1.symm, h1.2.symm⟩
  | false =>
    simp only [rewritePageContent, hr, Bool.false_eq_true, if_false] at h
    rw [if_neg (by simp)]
    split at h
    · rw [Prod.mk.injEq] at h
      exact absurd h.1 (by simp)
    · split at h
      · rw [Prod.mk.injEq] at h
        exact absurd h.1 (by simp)
      · rename_i rw hrw
        rw [Prod.mk.injEq] at h
        obtain ⟨h1, h2⟩ := h
        rw [RewriteResult.ok.injEq] at h1
        subst h2
        exact ⟨rfl, rfl, rfl, rw, hrw, rfl, h1.1.symm, h1.2.symm⟩

theorem findMainLoop_char (d : Dom) : ∀ sels : List (List Char),
    findMainLoop d sels =
      match (sels.filterMap d.queryMain).find?
          (fun el => decide (100 < getTextContentLength el)) with
      | some el => flattenF el
      | none => [] := by
  intro sels
  induction sels with
  | nil => simp [findMainLoop]
  | cons sel rest ih =>
    cases hq : d.queryMain sel with
    | none =>
      rw [List.filterMap_cons_none hq]
      simp only [findMainLoop, hq]
      exact ih
    | some el =>
      rw [List.filterMap_cons_some hq]
      simp only [findMainLoop, hq]
      by_cases hp : 100 < getTextContentLength el
      · rw [if_pos hp, List.find?_cons_of_pos _ (by simpa using hp)]
      · rw [if_neg hp, List.find?_cons_of_neg _ (by simpa using hp)]
        exact ih

theorem getTextContentLength_le (el : List Html) :
    getTextContentLength el ≤ (flattenF el).length := by
  unfold getTextContentLength
  calc (jsTrim (collapseWs (flattenF el))).length
      ≤ (collapseWs (flattenF el)).length := jsTrim_length_le _
    _ ≤ (flattenF el).length := collapseWs_length_le _

theorem storeAux_eq_captureSpec : ∀ (l : List (List Html)) (i : Nat),
    storeAux i l = (l.enumFrom i).filterMap fun p =>
      if 10 < (jsTrim (flattenF p.2)).length then
        some (p.1, ⟨flattenF p.2, p.2⟩)
      else none := by
  intro l
  induction l with
  | nil => intro i; simp [storeAux]
  | cons el rest ih =>
    intro i
    rw [storeAux, List.enumFrom_cons, List.filterMap_cons]
    by_cases h : 10 < (jsTrim (flattenF el)).length
    · have hne : flattenF el ≠ [] := by
        intro he
        rw [he] at h
        simp [jsTrim, List.dropWhile] at h
      rw [if_pos ⟨hne, h⟩]
      simp only [if_pos h]
      rw [ih]
    · rw [if_neg (fun hc => h hc.2)]
      simp only [if_neg h]
      exact ih (i + 1)

theorem fireTimeout_originalTexts (s : State) :
    (fireTimeout s).originalTexts = s.originalTexts := by
  unfold fireTimeout
  cases s.pending <;> rfl

theorem fireTimeout_isRewritten (s : State) :
    (fireTimeout s).isRewritten = s.isRewritten := by
  unfold fireTimeout
  cases s.pending <;> rfl

theorem fireTimeout_elements_length (s : State) :
    (fireTimeout s).dom.elements.length = s.dom.elements.length := by
  unfold fireTimeout
  cases s.pending with
  | none => rfl
  | some content =>
    show (applyRTE _ _ _ _).length = _
    rw [applyRTE_length]

theorem resetPageContent_elements_of_rewritten (s : State) (h : s.isRewritten = true) :
    (resetPageContent s).dom.elements = writeBackAll s.originalTexts s.dom.elements := by
  unfold resetPageContent
  rw [if_neg (by simp [h])]

/-- C7: the content selector tries the fixed ordered selector list, takes the
    flattened text of the first match whose whitespace-collapsed text length
    exceeds 100 characters, and falls back to the flattened text of the body
    when no selector qualifies; `extractMainContent` is exactly that
    selection, normalized. -/
theorem extractMainContent_refines (d : Dom) :
    extractMainContent d = cleanTextContent (extractMainContentSpec d) := by
  simp only [extractMainContent, extractMainContentSpec, firstQualifying]
  rw [findMainLoop_char]
  cases hf : (contentSelectors.filterMap d.queryMain).find?
      (fun el => decide (100 < getTextContentLength el)) with
  | none => simp
  | some el =>
    have hel : 100 < getTextContentLength el := by
      have h := List.find?_some hf
      simpa using h
    have hlen : 100 < (flattenF el).length :=
      Nat.lt_of_lt_of_le hel (getTextContentLength_le el)
    have hne : flattenF el ≠ [] := by
      intro he
      rw [he] at hlen
      simp at hlen
    show cleanTextContent
        (if flattenF el = [] ∨ (flattenF el).length < 100 then flattenF d.body
         else flattenF el) = cleanTextContent (flattenF el)
    rw [if_neg (by push_neg; exact ⟨hne, by omega⟩)]

/-- C10: a capture run replaces the store wholesale, so afterwards it holds
    exactly the elements whose trimmed flattened text is longer than 10
    characters, keyed in traversal order, independent of any stale entries
    from an earlier session. -/
theorem storeOriginalTexts_captures (s : State) :
    (storeOriginalTexts s).originalTexts = captureSpec s.dom.elements := by
  show storeAux 0 s.dom.elements = captureSpec s.dom.elements
  rw [storeAux_eq_captureSpec]
  rfl

/-- C4: any failing rewrite comes back as the uniform error result (the
    embedded controller is total, so no fault escapes), mutates no element's
    markup, and leaves the rewritten flag — and even the pending timeout —
    with the values they had before the call. -/
theorem rewrite_failure_no_mutation (apiKey targetLevel : List Char)
    (resp : HttpResponse) (s : State) (m : List Char) (s' : State)
    (h : rewritePageContent apiKey targetLevel resp s = (.err m, s')) :
    s'.dom.elements = s.dom.elements ∧ s'.isRewritten = s.isRewritten ∧
      s'.pending = s.pending := by
  obtain ⟨h1, h2, h3⟩ := rewrite_err_char apiKey targetLevel resp s m s' h
  exact ⟨by rw [h1], h2, h3⟩

/-- A page with no readable content, on which rewrite fails. -/
def demoStateEmpty : State := ⟨⟨fun _ => none, [], []⟩, [], false, none⟩

/-- Witness for C4 at a concrete failing input: an empty page makes rewrite
    fail at the selection stage with no mutation. -/
theorem rewrite_failure_no_mutation_witness :
    (rewritePageContent "key".toList "B1".toList ⟨200, true, none, "x".toList⟩
        demoStateEmpty).2.dom.elements = demoStateEmpty.dom.elements ∧
    (rewritePageContent "key".toList "B1".toList ⟨200, true, none, "x".toList⟩
        demoStateEmpty).2.isRewritten = demoStateEmpty.isRewritten ∧
    (rewritePageContent "key".toList "B1".toList ⟨200, true, none, "x".toList⟩
        demoStateEmpty).2.pending = demoStateEmpty.pending :=
  rewrite_failure_no_mutation "key".toList "B1".toList ⟨200, true, none, "x".toList⟩
    demoStateEmpty errNoContent _ rfl

/-- C9: a successful rewrite reports the success result, with the original
    and new lengths, and raises the rewritten flag while every element is
    still untouched; the mapper's mutation is parked in the pending timeout
    and runs only when it fires. -/
theorem rewrite_success_deferred (apiKey targetLevel : List Char)
    (resp : HttpResponse) (s : State) (a b : Nat) (s' : State)
    (h : rewritePageContent apiKey targetLevel resp s = (.ok a b, s')) :
    s'.dom.elements = s.dom.elements ∧ s'.isRewritten = true ∧
    ∃ rw, s'.pending = some rw ∧ a = (extractMainContent s.dom).length ∧
      b = rw.length ∧
      fireTimeout s' = { replaceTextElements rw s' with pending := none } := by
  obtain ⟨h1, h2, _, rw, _, hp, ha, hb⟩ :=
    rewrite_ok_char apiKey targetLevel resp s a b s' h
  refine ⟨by rw [h1], h2, rw, hp, ha, hb, ?_⟩
  unfold fireTimeout
  rw [hp]

/-- A page whose body text is long enough for extraction. -/
def demoBodyText : List Char :=
  ("This page has a sufficiently long body text so that extraction " ++
   "succeeds; it clearly exceeds the one hundred character minimum " ++
   "used by the selector fallback.").toList

/-- The five stored elements used by the concrete scenarios. -/
def demoElems : List (List Html) :=
  [[Html.text "original text number one x".toList],
   [Html.text "original text number two x".toList],
   [Html.text "original text number three".toList],
   [Html.text "original text number four x".toList],
   [Html.text "original text number five x".toList]]

/-- A concrete page state in the original (not rewritten) session state. -/
def demoState : State :=
  ⟨⟨fun _ => none, [Html.text demoBodyText], demoElems⟩, [], false, none⟩

/-- A successful response carrying two blank-line-separated paragraphs. -/
def demoResp : HttpResponse :=
  ⟨200, true, none, "First paragraph rewritten.\n\nSecond paragraph rewritten.".toList⟩

/-- Witness for C9 at a concrete successful rewrite. -/
theorem rewrite_success_deferred_witness :
    (rewritePageContent "key".toList "B1".toList demoResp demoState).2.dom.elements =
        demoState.dom.elements ∧
    (rewritePageContent "key".toList "B1".toList demoResp demoState).2.isRewritten = true ∧
    ∃ rw,
      (rewritePageContent "key".toList "B1".toList demoResp demoState).2.pending = some rw ∧
      (extractMainContent demoState.dom).length =
        (extractMainContent demoState.dom).length ∧
      (jsTrim demoResp.content).length = rw.length ∧
      fireTimeout (rewritePageContent "key".toList "B1".toList demoResp demoState).2 =
        { replaceTextElements rw
            (rewritePageContent "key".toList "B1".toList demoResp demoState).2 with
          pending := none } :=
  rewrite_success_deferred "key".toList "B1".toList demoResp demoState
    (extractMainContent demoState.dom).length (jsTrim demoResp.content).length
    (rewritePageContent "key".toList "B1".toList demoResp demoState).2 rfl

/-- C1: after a successful rewrite from a non-rewritten session, firing the
    deferred mutation and then resetting writes back, for every node recorded
    in the snapshot store, its original inner markup verbatim, so each
    snapshotted node's markup is bit-identical to its pre-rewrite markup. -/
theorem rewrite_reset_roundtrip (apiKey targetLevel : List Char)
    (resp : HttpResponse) (s : State) (a b : Nat) (s' : State)
    (h0 : s.isRewritten = false)
    (h : rewritePageContent apiKey targetLevel resp s = (.ok a b, s'))
    (idx : Nat) (item : Snapshot) (hm : (idx, item) ∈ s'.originalTexts) :
    (resetPageContent (fireTimeout s')).dom.elements[idx]? = s.dom.elements[idx]? ∧
    (resetPageContent (fireTimeout s')).dom.elements[idx]? = some item.originalHTML := by
  obtain ⟨h1, h2, h3, _, _, _, _, _⟩ :=
    rewrite_ok_char apiKey targetLevel resp s a b s' h
  rw [h0] at h3
  simp only [Bool.false_eq_true, if_false] at h3
  rw [h3] at hm
  obtain ⟨j, hj, hg, _⟩ := storeAux_mem_get s.dom.elements 0 idx item hm
  have hjidx : j = idx := by omega
  subst hjidx
  have hlt : j < s.dom.elements.length := by
    by_contra hcon
    rw [List.getElem?_eq_none (Nat.le_of_not_lt hcon)] at hg
    exact Option.noConfusion hg
  have htlen : (fireTimeout s').dom.elements.length = s.dom.elements.length := by
    rw [fireTimeout_elements_length, h1]
  have htrw : (fireTimeout s').isRewritten = true := by
    rw [fireTimeout_isRewritten, h2]
  have htstore : (fireTimeout s').originalTexts = storeAux 0 s.dom.elements := by
    rw [fireTimeout_originalTexts, h3]
  have hres : (resetPageContent (fireTimeout s')).dom.elements[j]? =
      some item.originalHTML := by
    rw [resetPageContent_elements_of_rewritten _ htrw, htstore]
    exact writeBackAll_get (storeAux 0 s.dom.elements) _ j item
      (storeAux_keys_nodup s.dom.elements 0) hm (by rw [htlen]; exact hlt)
  exact ⟨by rw [hres, hg], hres⟩

/-- Witness for C1, a concrete capture–mutate–restore round trip on the
    first snapshotted element of the demo page. -/
theorem rewrite_reset_roundtrip_witness :
    (resetPageContent (fireTimeout
        (rewritePageContent "key".toList "B1".toList demoResp demoState).2)).dom.elements[0]? =
      demoState.dom.elements[0]? ∧
    (resetPageContent (fireTimeout
        (rewritePageContent "key".toList "B1".toList demoResp demoState).2)).dom.elements[0]? =
      some [Html.text "original text number one x".toList] :=
  rewrite_reset_roundtrip "key".toList "B1".toList demoResp demoState
    (extractMainContent demoState.dom).length (jsTrim demoResp.content).length
    (rewritePageContent "key".toList "B1".toList demoResp demoState).2 rfl rfl
    0 ⟨"original text number one x".toList, [Html.text "original text number one x".toList]⟩
    (by decide)

/-- C6: a snapshotted node whose original flattened text is at most 20
    characters long is never mutated by the mapper: its markup (and hence its
    text) is unchanged by any run of `replaceTextElements`. -/
theorem mapper_short_node_untouched (rewrittenContent : List Char) (s : State)
    (hnd : (s.originalTexts.map Prod.fst).Nodup)
    (idx : Nat) (item : Snapshot) (hm : (idx, item) ∈ s.originalTexts)
    (hshort : item.originalText.length ≤ 20) :
    (replaceTextElements rewrittenContent s).dom.elements[idx]? =
      s.dom.elements[idx]? := by
  show (applyRTE (splitParas rewrittenContent) s.originalTexts 0 s.dom.elements)[idx]? = _
  apply applyRTE_store_frame
  intro item' hm'
  have heq : item = item' := nodup_keys_functional s.originalTexts hnd idx item item' hm hm'
  rw [← heq]
  exact hshort

/-- A page whose single stored element holds a short (≤ 20 characters)
    text. -/
def demoShortState : State :=
  ⟨⟨fun _ => none, [], [[Html.text "short text okay".toList]]⟩,
   storeAux 0 [[Html.text "short text okay".toList]], false, none⟩

/-- Witness for C6: the mapper leaves the short node of the short-node page
    untouched. -/
theorem mapper_short_node_untouched_witness :
    (replaceTextElements "NEW ONE\n\nNEW TWO".toList demoShortState).dom.elements[0]? =
      demoShortState.dom.elements[0]? :=
  mapper_short_node_untouched "NEW ONE\n\nNEW TWO".toList demoShortState (by decide)
    0 ⟨"short text okay".toList, [Html.text "short text okay".toList]⟩ (by decide)
    (by decide)

/-- A concrete page state whose store holds the five demo elements, all
    qualifying for the mapper. -/
def demo5State : State :=
  ⟨⟨fun _ => none, [], demoElems⟩, storeAux 0 demoElems, false, none⟩

/-- The rewritten content with exactly three blank-line-separated segments. -/
def demoSegContent : List Char := "SEG ONE\n\nSEG TWO\n\nSEG THREE".toList

/-- Counterexample to C2: with 3 blank-line segments and 5 qualifying nodes,
    node 4 keeps its original text — it does not receive segment 3, and so
    not every qualifying node is assigned text. -/
theorem mapper_fallback_counterexample :
    (replaceTextElements demoSegContent demo5State).dom.elements[3]? =
      some [Html.text "original text number four x".toList] ∧
    "original text number four x".toList ≠ "SEG THREE".toList := by
  constructor
  · rfl
  · decide

/-- C2 amended: when the rewritten text has fewer blank-line segments than
    qualifying nodes, only the first (segment count) qualifying nodes receive
    text; every qualifying node beyond the segment count is left untouched
    rather than being assigned the final segment. -/
theorem mapper_beyond_segments_untouched (rewrittenContent : List Char) (s : State)
    (hnd : (s.originalTexts.map Prod.fst).Nodup)
    (idx : Nat) (item : Snapshot)
    (hm : (idx, item) ∈ ((s.originalTexts.filter
        fun e => decide (20 < e.2.originalText.length)).drop
        (splitParas rewrittenContent).length)) :
    (replaceTextElements rewrittenContent s).dom.elements[idx]? =
      s.dom.elements[idx]? := by
  show (applyRTE (splitParas rewrittenContent) s.originalTexts 0 s.dom.elements)[idx]? = _
  apply applyRTE_beyond _ _ 0 _ _ item hnd
  simpa using hm

/-- Witness for the amended C2: node 5 of the demo page lies beyond the three
    segments and is untouched. -/
theorem mapper_beyond_segments_untouched_witness :
    (replaceTextElements demoSegContent demo5State).dom.elements[4]? =
      demo5State.dom.elements[4]? :=
  mapper_beyond_segments_untouched demoSegContent demo5State (by decide)
    4 ⟨"original text number five x".toList, [Html.text "original text number five x".toList]⟩
    (by decide)

/-- A rewritten-state page with one recorded snapshot. -/
def demoRewrittenState : State :=
  ⟨⟨fun _ => none, [], [[Html.text "MUTATED".toList]]⟩,
   [(0, ⟨"original text number one x".toList,
        [Html.text "original text number one x".toList]⟩)], true, none⟩

/-- Counterexample to C3: reset completes (the flag drops) but the snapshot
    store is not cleared — it still holds its entry. -/
theorem reset_store_counterexample :
    (resetPageContent demoRewrittenState).isRewritten = false ∧
    (resetPageContent demoRewrittenState).originalTexts ≠ [] := by
  constructor
  · rfl
  · decide

/-- C3 amended: on a rewritten session, reset writes every recorded node's
    original inner markup back and lowers the rewritten flag, but it leaves
    the snapshot store untouched — the store is emptied only by the next
    capture, not by reset. -/
theorem reset_restores_and_keeps_store (s : State)
    (h : s.isRewritten = true)
    (hnd : (s.originalTexts.map Prod.fst).Nodup)
    (hb : ∀ p : Nat × Snapshot, p ∈ s.originalTexts → p.1 < s.dom.elements.length) :
    (∀ p : Nat × Snapshot, p ∈ s.originalTexts →
        (resetPageContent s).dom.elements[p.1]? = some p.2.originalHTML) ∧
    (resetPageContent s).originalTexts = s.originalTexts ∧
    (resetPageContent s).isRewritten = false := by
  refine ⟨?_, ?_, ?_⟩
  · intro p hp
    rw [resetPageContent_elements_of_rewritten s h]
    exact writeBackAll_get s.originalTexts s.dom.elements p.1 p.2 hnd hp (hb p hp)
  · unfold resetPageContent
    split <;> rfl
  · unfold resetPageContent
    rw [if_neg (by simp [h])]

/-- Witness for the amended C3 on the concrete rewritten page. -/
theorem reset_restores_and_keeps_store_witness :
    (∀ p : Nat × Snapshot, p ∈ demoRewrittenState.originalTexts →
        (resetPageContent demoRewrittenState).dom.elements[p.1]? =
          some p.2.originalHTML) ∧
    (resetPageContent demoRewrittenState).originalTexts =
      demoRewrittenState.originalTexts ∧
    (resetPageContent demoRewrittenState).isRewritten = false :=
  reset_restores_and_keeps_store demoRewrittenState rfl (by decide) (by decide)

/-- C8: when the remote call hits HTTP 401, rewrite fails with a message
    containing "Invalid API key", no element's markup changes, and the
    session stays in the original state; more generally 429 maps to the
    rate-limit failure, any other non-ok status to the API-error failure
    carrying the reported message or "Unknown error", and an ok response
    whose extracted text is empty to the empty-response failure.  The four
    response arguments carry one scenario each. -/
theorem remote_status_mapping (apiKey targetLevel : List Char) (s : State)
    (text : List Char)
    (hkey : apiKey ≠ [])
    (htext : 10 ≤ text.length)
    (hx1 : jsTrim (extractMainContent s.dom) ≠ [])
    (hx2 : 10 ≤ (extractMainContent s.dom).length)
    (hrw : s.isRewritten = false)
    (r1 r2 r3 r4 : HttpResponse)
    (h1 : r1.status = 401)
    (h2 : r2.status = 429)
    (h3 : r3.status ≠ 401 ∧ r3.status ≠ 429 ∧ r3.ok = false)
    (h4 : r4.status ≠ 401 ∧ r4.status ≠ 429 ∧ r4.ok = true ∧ jsTrim r4.content = []) :
    ((rewritePageContent apiKey targetLevel r1 s).1 = .err (failWrap errInvalidKey) ∧
      List.IsInfix "Invalid API key".toList (failWrap errInvalidKey) ∧
      (rewritePageContent apiKey targetLevel r1 s).2.dom.elements = s.dom.elements ∧
      (rewritePageContent apiKey targetLevel r1 s).2.isRewritten = false) ∧
    rewriteTextWithOpenAI text targetLevel apiKey r2 = .error (failWrap errRateLimit) ∧
    rewriteTextWithOpenAI text targetLevel apiKey r3 =
      .error (failWrap (errApi r3.errorMessage)) ∧
    rewriteTextWithOpenAI text targetLevel apiKey r4 =
      .error (failWrap errEmptyResp) := by
  have hvalid : ∀ t : List Char, 10 ≤ t.length → ¬(t = [] ∨ t.length < 10) := by
    intro t ht
    push_neg
    constructor
    · intro he
      rw [he] at ht
      simp at ht
    · omega
  have hcall1 : rewriteTextWithOpenAI (extractMainContent s.dom) targetLevel apiKey r1 =
      .error (failWrap errInvalidKey) := by
    unfold rewriteTextWithOpenAI fetchOutcome
    rw [if_neg (hvalid _ hx2), if_neg hkey, if_pos h1]
  refine ⟨?_, ?_, ?_, ?_⟩
  · have hdom : (storeOriginalTexts s).dom = s.dom := rfl
    simp only [rewritePageContent, hrw, Bool.false_eq_true, if_false, hdom]
    rw [if_neg hx1, hcall1]
    exact ⟨rfl, by decide, rfl, hrw⟩
  · unfold rewriteTextWithOpenAI fetchOutcome
    rw [if_neg (hvalid _ htext), if_neg hkey, if_neg (by rw [h2]; decide), if_pos h2]
  · unfold rewriteTextWithOpenAI fetchOutcome
    rw [if_neg (hvalid _ htext), if_neg hkey, if_neg h3.1, if_neg h3.2.1,
      if_pos h3.2.2]
  · unfold rewriteTextWithOpenAI fetchOutcome
    rw [if_neg (hvalid _ htext), if_neg hkey, if_neg h4.1, if_neg h4.2.1,
      if_neg (by rw [h4.2.2.1]; decide)]
    simp only [h4.2.2.2, if_pos]

/-- Witness for C8 at concrete responses of each kind against the demo
    page. -/
theorem remote_status_mapping_witness :
    ((rewritePageContent "key".toList "B1".toList ⟨401, false, none, []⟩
          demoState).1 = .err (failWrap errInvalidKey) ∧
      List.IsInfix "Invalid API key".toList (failWrap errInvalidKey) ∧
      (rewritePageContent "key".toList "B1".toList ⟨401, false, none, []⟩
          demoState).2.dom.elements = demoState.dom.elements ∧
      (rewritePageContent "key".toList "B1".toList ⟨401, false, none, []⟩
          demoState).2.isRewritten = false) ∧
    rewriteTextWithOpenAI "some sample text".toList "B1".toList "key".toList
        ⟨429, false, none, []⟩ = .error (failWrap errRateLimit) ∧
    rewriteTextWithOpenAI "some sample text".toList "B1".toList "key".toList
        ⟨500, false, some "server exploded".toList, []⟩ =
      .error (failWrap (errApi (some "server exploded".toList))) ∧
    rewriteTextWithOpenAI "some sample text".toList "B1".toList "key".toList
        ⟨200, true, none, "  \n ".toList⟩ = .error (failWrap errEmptyResp) :=
  remote_status_mapping "key".toList "B1".toList demoState "some sample text".toList
    (by decide) (by decide) (by decide) (by decide) rfl
    ⟨401, false, none, []⟩ ⟨429, false, none, []⟩
    ⟨500, false, some "server exploded".toList, []⟩
    ⟨200, true, none, "  \n ".toList⟩
    rfl rfl (by decide) (by decide)

end CEFR
